import Mathlib

/-!
Verification of the Lavapy audio-client library against its specification.

Each Python class relevant to the verified properties is shallowly embedded:
mutable objects become Lean structures, methods become functions from the old
state to the new state (paired with the produced result and the payloads
handed to the node's socket), Python `int` becomes `ℤ`, Python `float`
becomes `ℚ` (or `ℝ` where the code takes non-integer powers), and a method
that can raise returns an `Except`.  A raise that happens after a field
mutation (Python keeps the mutation) is modelled by performing the mutation
and reporting the error.
-/

namespace Lavapy

/-! ## Python list primitives

Python sequence indexing accepts negative indices (counted from the end),
`list.pop` raises `IndexError` on an out-of-range index, and `list.insert`
clamps its index into range.  These helpers reproduce those semantics for
the index arithmetic `Queue` and `Player` perform. -/

/-- Normalisation of a Python sequence index: a negative index counts from
the end of the list. -/
def pyNorm (l : List α) (i : ℤ) : ℤ :=
  if i < 0 then (l.length : ℤ) + i else i

/-- Python `l[i]`: negative indices count from the end; out-of-range raises
(`none`). -/
def pyGet (l : List α) (i : ℤ) : Option α :=
  if 0 ≤ pyNorm l i ∧ pyNorm l i < (l.length : ℤ) then l[(pyNorm l i).toNat]?
  else none

/-- Python `l.pop(i)`: returns the removed element and the remaining list;
out-of-range raises (`none`). -/
def pyPop (l : List α) (i : ℤ) : Option (α × List α) :=
  if 0 ≤ pyNorm l i ∧ pyNorm l i < (l.length : ℤ) then
    match l[(pyNorm l i).toNat]? with
    | some x => some (x, l.eraseIdx (pyNorm l i).toNat)
    | none => none
  else none

/-- The index at which Python `l.insert(i, x)` places `x`: clamped into
range, negative indices counting from the end. -/
def pyClamp (l : List α) (i : ℤ) : ℤ :=
  if i < 0 then max 0 ((l.length : ℤ) + i) else min i (l.length : ℤ)

/-- Python `l.insert(i, x)`. -/
def pyInsert (l : List α) (i : ℤ) (x : α) : List α :=
  l.insertIdx (pyClamp l i).toNat x

/-! ## Queue (src/lavapy/queue.py)

`Queue.__init__` sets `_tracks = []` and `_currentTrack = -1`.  The owning
player's `isRepeating` flag is read by `next`/`previous`; it is passed as an
explicit argument here. -/

/-- The mutable state of a `Queue`: the track list and the integer cursor. -/
structure QState (α : Type) where
  tracks : List α
  current : ℤ
  deriving DecidableEq, Repr

/-- Errors raised by queue operations: `QueueEmpty`, `RepeatException`, and a
bare Python `IndexError` from an out-of-range list access. -/
inductive QErr where
  | queueEmpty
  | repeatError
  | indexError
  deriving DecidableEq, Repr

/-- Result of a queue operation: the returned track (or raised error) and the
state the queue is left in (mutations before a raise persist). -/
structure QRes (α : Type) where
  result : Except QErr α
  state : QState α

/-- `Queue.__init__`: no tracks, cursor `-1`. -/
def Queue.initial (α : Type) : QState α := ⟨[], -1⟩

/-- `Queue.isEmpty`: `currentTrack == count - 1`. -/
def Queue.isEmptyQ (s : QState α) : Bool := s.current = (s.tracks.length : ℤ) - 1

/-- `Queue.next`: raises `QueueEmpty` if `isEmpty`, raises `RepeatException`
if the player is repeating, else increments the cursor and returns
`tracks[currentTrack]`. -/
def Queue.next (repeating : Bool) (s : QState α) : QRes α :=
  if Queue.isEmptyQ s then ⟨.error .queueEmpty, s⟩
  else if repeating then ⟨.error .repeatError, s⟩
  else
    let s' : QState α := ⟨s.tracks, s.current + 1⟩
    match pyGet s'.tracks s'.current with
    | some t => ⟨.ok t, s'⟩
    | none => ⟨.error .indexError, s'⟩

/-- `Queue.previous`: raises `QueueEmpty` if the cursor is `0`, raises
`RepeatException` if the player is repeating, else decrements the cursor and
returns `tracks[currentTrack]`.  Note the guard only checks `== 0`: from
cursor `-1` the decrement to `-2` happens. -/
def Queue.previous (repeating : Bool) (s : QState α) : QRes α :=
  if s.current = 0 then ⟨.error .queueEmpty, s⟩
  else if repeating then ⟨.error .repeatError, s⟩
  else
    let s' : QState α := ⟨s.tracks, s.current - 1⟩
    match pyGet s'.tracks s'.current with
    | some t => ⟨.ok t, s'⟩
    | none => ⟨.error .indexError, s'⟩

/-- `Queue.add`: appends a track, cursor untouched. -/
def Queue.add (s : QState α) (t : α) : QState α := ⟨s.tracks ++ [t], s.current⟩

/-- `Queue.addIterable`: appends each track of the iterable in order. -/
def Queue.addIterable (s : QState α) (ts : List α) : QState α :=
  ⟨s.tracks ++ ts, s.current⟩

/-- `Queue.reset`: clears the tracks and sets the cursor to `0`. -/
def Queue.reset (_ : QState α) : QState α := ⟨[], 0⟩

/-- `Queue.shuffle`: pops the track at the cursor, shuffles the remainder
(`random.shuffle` is modelled as an arbitrary permutation), and reinserts the
popped track at the cursor index.  A pop on an empty list raises before any
mutation, leaving the state unchanged. -/
def Queue.shuffleRel (s s' : QState α) : Prop :=
  match pyPop s.tracks s.current with
  | none => s' = s
  | some (t, rest) =>
      ∃ rest2 : List α, rest2.Perm rest ∧ s' = ⟨pyInsert rest2 s.current t, s.current⟩

/-- The cursor invariant claimed by the spec: `-1 <= currentTrack <= len(tracks)-1`. -/
def QInv (s : QState α) : Prop :=
  -1 ≤ s.current ∧ s.current ≤ (s.tracks.length : ℤ) - 1

instance (s : QState α) : Decidable (QInv s) := by
  unfold QInv; infer_instance

/-- States reachable from the initial queue by `add`, `addIterable`, `next`,
`previous`, `shuffle` and `reset` (with any value of the player's repeat flag
at each step). -/
inductive QReach {α : Type} : QState α → Prop where
  | init : QReach (Queue.initial α)
  | add {s} (t : α) : QReach s → QReach (Queue.add s t)
  | addIterable {s} (ts : List α) : QReach s → QReach (Queue.addIterable s ts)
  | next {s} (b : Bool) : QReach s → QReach (Queue.next b s).state
  | previous {s} (b : Bool) : QReach s → QReach (Queue.previous b s).state
  | shuffle {s s'} : QReach s → Queue.shuffleRel s s' → QReach s'
  | reset {s} : QReach s → QReach (Queue.reset s)

/-- Reachability as in `QReach` but with `reset` excluded and `previous`
only invoked with the cursor away from `-1` (the two operations whose
unguarded paths break the cursor invariant). -/
inductive QReachA {α : Type} : QState α → Prop where
  | init : QReachA (Queue.initial α)
  | add {s} (t : α) : QReachA s → QReachA (Queue.add s t)
  | addIterable {s} (ts : List α) : QReachA s → QReachA (Queue.addIterable s ts)
  | next {s} (b : Bool) : QReachA s → QReachA (Queue.next b s).state
  | previous {s} (b : Bool) : QReachA s → s.current ≠ -1 →
      QReachA (Queue.previous b s).state
  | shuffle {s s'} : QReachA s → Queue.shuffleRel s s' → QReachA s'

/-! ## ExponentialBackoff (src/lavapy/backoff.py)

`delay()` increments `_retries`, resets it to `1` once it exceeds
`_maxRetries`, and returns `random.uniform(0, base * 2 ** retries)`.
`random.uniform(a, b)` is `a + (b - a) * random.random()` with
`random.random()` in `[0, 1)`; the random draw is the explicit argument `u`
here.  The method is a straight-line function of the state and the draw: it
has no raising path. -/

/-- The state of an `ExponentialBackoff` instance. -/
structure Backoff where
  base : ℤ
  maxRetries : ℤ
  retries : ℤ
  deriving DecidableEq, Repr

/-- `ExponentialBackoff.__init__`: retry counter starts at `0`
(defaults: `base = 1`, `maxRetries = 20`). -/
def Backoff.mkBackoff (base maxRetries : ℤ) : Backoff := ⟨base, maxRetries, 0⟩

/-- The state mutation of `delay()`: increment `_retries`, reset to `1` if it
now exceeds `_maxRetries`. -/
def Backoff.step (b : Backoff) : Backoff :=
  if b.retries + 1 > b.maxRetries then ⟨b.base, b.maxRetries, 1⟩
  else ⟨b.base, b.maxRetries, b.retries + 1⟩

/-- The value returned by `delay()` given the draw `u = random.random()`:
`uniform(0, base * 2 ** retries)` evaluated at the post-increment retry
count. -/
def Backoff.delayValue (b : Backoff) (u : ℚ) : ℚ :=
  0 + ((b.base : ℚ) * (2 : ℚ) ^ b.step.retries - 0) * u

/-! ## Stats and Penalty (src/lavapy/stats.py, src/lavapy/pool.py)

`Stats.__init__` reads the frame counters from the optional `frameStats`
dict with default `-1`, so `-1` encodes "frame stats absent".  `Penalty`
initialises the null/deficit penalties to `0` and only overwrites them when
the corresponding counter is not `-1`.  Python float exponentiation is
modelled by real powers (`Real.rpow`). -/

/-- The fields of a `Stats` snapshot that `Penalty` reads. -/
structure Stats where
  playingPlayers : ℤ
  systemLoad : ℝ
  framesNulled : ℤ
  framesDeficit : ℤ

/-- The `Penalty` object computed by `Penalty.__init__`. -/
structure Penalty where
  playerPenalty : ℤ
  cpuPenalty : ℝ
  nullFramePenalty : ℝ
  deficitFramePenalty : ℝ
  total : ℝ

/-- `Penalty.__init__`: line-by-line translation, including the conditional
overwrite of the two frame penalties and the `*= 2` on the null-frame one. -/
noncomputable def Penalty.ofStats (st : Stats) : Penalty :=
  let playerPenalty : ℤ := st.playingPlayers
  let cpuPenalty : ℝ := (1.05 : ℝ) ^ ((100 : ℝ) * st.systemLoad) * 10 - 10
  let nullFramePenalty : ℝ :=
    if st.framesNulled ≠ -1 then
      ((1.03 : ℝ) ^ ((500 : ℝ) * ((st.framesNulled : ℝ) / 3000)) * 300 - 300) * 2
    else 0
  let deficitFramePenalty : ℝ :=
    if st.framesDeficit ≠ -1 then
      (1.03 : ℝ) ^ ((500 : ℝ) * ((st.framesDeficit : ℝ) / 3000)) * 600 - 600
    else 0
  ⟨playerPenalty, cpuPenalty, nullFramePenalty, deficitFramePenalty,
    (playerPenalty : ℝ) + cpuPenalty + nullFramePenalty + deficitFramePenalty⟩

/-- `Node.penalty`: `0.0` when the node has no `Stats` yet, else
`stats.penalty.total`. -/
noncomputable def Node.penalty (stats : Option Stats) : ℝ :=
  match stats with
  | none => 0
  | some st => (Penalty.ofStats st).total

/-! ## NodePool.minPlayers (src/lavapy/pool.py)

The registry `NodePool._nodes` is a Python dict, which iterates in insertion
order; it is embedded as a list of nodes in that order.  `minPlayers` raises
`NoNodesConnected` on an empty registry and otherwise returns
`sorted(nodes, key=lambda x: len(x.players))[0]`.  Python `sorted` is a
stable sort, and every stable sort produces the same output list, embedded
here as a stable insertion sort (`pySorted`): an element is inserted after
all elements with a strictly smaller key and before the first element with a
greater-or-equal key, so earlier elements keep priority on equal keys. -/

/-- A node as `minPlayers` sees it: its identifier and its attached-player
count `len(node.players)`. -/
structure NodeM where
  identifier : String
  players : ℕ
  deriving DecidableEq, Repr

/-- Stable insertion into an already key-sorted list. -/
def pySortedInsert (key : α → ℕ) (x : α) : List α → List α
  | [] => [x]
  | y :: ys => if key y < key x then y :: pySortedInsert key x ys else x :: y :: ys

/-- The output list of Python `sorted(l, key=key)` (stable sort by key). -/
def pySorted (key : α → ℕ) : List α → List α
  | [] => []
  | x :: xs => pySortedInsert key x (pySorted key xs)

/-- The errors the selection algorithms raise. -/
inductive PoolError where
  | noNodesConnected
  | invalidNodeSearch
  deriving DecidableEq, Repr

/-- `NodePool.minPlayers`: raise `NoNodesConnected` on an empty registry,
else the head of the stably key-sorted registry (the unreachable
`result[0]`-on-empty path maps to `InvalidNodeSearch`). -/
def NodePool.minPlayers (reg : List NodeM) : Except PoolError NodeM :=
  if reg.isEmpty then .error .noNodesConnected
  else
    match pySorted (fun n => n.players) reg with
    | [] => .error .invalidNodeSearch
    | n :: _ => .ok n

/-- Modelled from the spec's words for comparison: the first element of the
list attaining the minimal key — "fewest attached sessions, stable tie-break
= registry iteration order". -/
def firstMinBy (key : α → ℕ) : List α → Option α
  | [] => none
  | x :: xs =>
    match firstMinBy key xs with
    | none => some x
    | some m => if key x ≤ key m then some x else some m

/-! ## Node.getTracks (src/lavapy/pool.py)

`getTracks` performs a `loadtracks` REST request and branches on the
response: a non-200 status raises `LavalinkException`; then the `loadType`
of a (well-formed) Lavalink `loadtracks` response is one of `LOAD_FAILED`,
`NO_MATCHES`, `TRACK_LOADED`, `SEARCH_RESULT` and `PLAYLIST_LOADED`.
`LOAD_FAILED` raises `LoadTrackError`; `NO_MATCHES` returns `None`;
the others build and return the loaded resources (the `data["tracks"][0]`
access on an empty track list raises a bare `IndexError`). -/

/-- The `loadType` of a Lavalink `loadtracks` response. -/
inductive LoadType where
  | loadFailed
  | noMatches
  | trackLoaded
  | searchResult
  | playlistLoaded
  deriving DecidableEq, Repr

/-- One entry of the response's `tracks` array: the base64 track id and its
info dict (left abstract). -/
structure TrackData where
  track : String
  info : String
  deriving DecidableEq, Repr

/-- The parts of a `loadtracks` response `getTracks` reads, together with the
HTTP status. -/
structure LoadResponse where
  status : ℕ
  loadType : LoadType
  tracks : List TrackData
  playlistName : String
  deriving DecidableEq, Repr

/-- The exceptions `getTracks` can raise. -/
inductive GetTracksError where
  | lavalinkException
  | loadTrackError
  | indexError
  deriving DecidableEq, Repr

/-- The non-`None` resources `getTracks` can return. -/
inductive LoadedResource where
  | single (t : TrackData)
  | trackList (ts : List TrackData)
  | playlist (name : String) (ts : List TrackData)
  deriving DecidableEq, Repr

/-- `Node.getTracks`, branch for branch. -/
def Node.getTracks (r : LoadResponse) : Except GetTracksError (Option LoadedResource) :=
  if r.status ≠ 200 then .error .lavalinkException
  else
    match r.loadType with
    | .loadFailed => .error .loadTrackError
    | .noMatches => .ok none
    | .trackLoaded =>
      match r.tracks with
      | [] => .error .indexError
      | t :: _ => .ok (some (.single t))
    | .searchResult => .ok (some (.trackList r.tracks))
    | .playlistLoaded => .ok (some (.playlist r.playlistName r.tracks))

/-! ## Player (src/lavapy/player.py)

The player state a `Player` instance owns, and the command methods the
claims are about.  Timestamps and track positions are seconds (Python
floats, embedded as `ℚ`); each command method returns the new player state
together with the list of payloads handed to `node._send` during the call,
so "fails before any network I/O" is visible as an empty payload list.
`Player.__init__` sets volume `100`, no track, no filters, not connected,
not paused, no position report, and a fresh queue. -/

/-- A track as the player sees it: its base64 id and its length in seconds. -/
structure PTrack where
  id : String
  length : ℚ
  deriving DecidableEq, Repr

/-- The dict `_togglePause` builds and sends. -/
structure PausePayload where
  op : String
  guildId : String
  pause : String
  deriving DecidableEq, Repr

/-- The possible values of the `_paused` attribute: the bool it is intended
to hold, or the pause-payload dict that `_togglePause` actually stores into
it (its `pause` parameter is shadowed by the payload before the
assignment `self._paused = pause`). -/
inductive PyBoolOrDict where
  | bool (b : Bool)
  | payload (p : PausePayload)
  deriving DecidableEq, Repr

/-- Python truthiness of a `_paused` value: `bool(b) = b`, and the pause
payload is a dict with three keys, hence truthy. -/
def PyBoolOrDict.truthy : PyBoolOrDict → Bool
  | .bool b => b
  | .payload _ => true

/-- A filter object as the player sees it: its class-level `name` and its
`payload` (left abstract). -/
structure LFilter where
  name : String
  payload : ℤ
  deriving DecidableEq, Repr

/-- The player state. -/
structure Player where
  connected : Bool
  track : Option PTrack
  volume : ℤ
  filters : List (String × LFilter)
  queue : QState PTrack
  paused : PyBoolOrDict
  lastUpdateTime : Option ℚ
  lastPosition : Option ℚ
  repeating : Bool
  guildId : String
  deriving DecidableEq, Repr

/-- `Player.__init__`. -/
def Player.mkPlayer (g : String) : Player :=
  ⟨false, none, 100, [], Queue.initial PTrack, .bool false, none, none, false, g⟩

/-- `Player.isPlaying`: connected and holding a track. -/
def Player.isPlaying (p : Player) : Bool :=
  p.connected && p.track.isSome

/-- `Player.position` at wall-clock time `now` (seconds): `0` when not
playing; when paused, `min(lastPosition, track.length)`; else
`min(lastPosition + (now - lastUpdateTime), track.length)`.  An arithmetic
or `min` on a `None` position report raises `TypeError` (`none`). -/
def Player.position (p : Player) (now : ℚ) : Option ℚ :=
  if ¬ p.isPlaying then some 0
  else
    match p.track with
    | none => some 0
    | some tr =>
      if p.paused.truthy then
        match p.lastPosition with
        | none => none
        | some lp => some (min lp tr.length)
      else
        match p.lastPosition, p.lastUpdateTime with
        | some lp, some lu => some (min (lp + (now - lu)) tr.length)
        | _, _ => none

/-- The errors the filter methods raise. -/
inductive FilterError where
  | filterAlreadyExists
  | filterNotApplied
  deriving DecidableEq, Repr

/-- The `op: filters` payload `_updateFilters` sends: normalized volume plus
the entire current filter set. -/
structure FiltersCommand where
  guildId : String
  volume : ℚ
  entries : List (String × ℤ)
  deriving DecidableEq, Repr

/-- `Player._updateFilters`: collects every applied filter (name ↦ payload)
and the volume divided by 100. -/
def Player.updateFiltersPayload (p : Player) : FiltersCommand :=
  ⟨p.guildId, (p.volume : ℚ) / 100, p.filters.map (fun kv => (kv.2.name, kv.2.payload))⟩

/-- `name in self.filters.keys()`. -/
def filtersHas (fs : List (String × LFilter)) (n : String) : Bool :=
  fs.any (fun kv => kv.1 == n)

/-- `Player.addFilter`: raises `FilterAlreadyExists` when a filter of the
same name is applied, else stores the filter and sends the full filter
payload. -/
def Player.addFilter (p : Player) (f : LFilter) :
    Except FilterError Unit × Player × List FiltersCommand :=
  if filtersHas p.filters f.name then (.error .filterAlreadyExists, p, [])
  else
    let p2 : Player := { p with filters := p.filters ++ [(f.name, f)] }
    (.ok (), p2, [p2.updateFiltersPayload])

/-- `Player.removeFilter`: raises `FilterNotApplied` when no filter of that
name is applied, else deletes it and sends the full filter payload. -/
def Player.removeFilter (p : Player) (name : String) :
    Except FilterError Unit × Player × List FiltersCommand :=
  if !filtersHas p.filters name then (.error .filterNotApplied, p, [])
  else
    let p2 : Player := { p with filters := p.filters.filter (fun kv => !(kv.1 == name)) }
    (.ok (), p2, [p2.updateFiltersPayload])

/-- `Player.resetFilter`: raises `FilterNotApplied` when no filter of that
name is applied, else overwrites it with the freshly constructed default
filter (`filter.flat()` for the equalizer, `filter()` otherwise — passed in
as `defaultF`) and sends the full filter payload. -/
def Player.resetFilter (p : Player) (name : String) (defaultF : LFilter) :
    Except FilterError Unit × Player × List FiltersCommand :=
  if !filtersHas p.filters name then (.error .filterNotApplied, p, [])
  else
    let p2 : Player :=
      { p with filters := p.filters.map (fun kv => if kv.1 == name then (kv.1, defaultF) else kv) }
    (.ok (), p2, [p2.updateFiltersPayload])

/-- The `op: volume` payload. -/
structure VolumeCommand where
  guildId : String
  volume : ℤ
  deriving DecidableEq, Repr

/-- `Player.setVolume`: clamps into `[0, 1000]`, stores, sends. -/
def Player.setVolume (p : Player) (v : ℤ) : Player × List VolumeCommand :=
  let p2 : Player := { p with volume := max (min v 1000) 0 }
  (p2, [⟨p2.guildId, p2.volume⟩])

/-- The `op: play` payload. -/
structure PlayCommand where
  guildId : String
  track : String
  startTime : ℤ
  volume : ℤ
  noReplace : Bool
  pause : Bool
  endTime : Option ℤ
  deriving DecidableEq, Repr

/-- `Player.play` for a plain `Track` resource (the `PartialResource` and
`MultiTrack` paths resolve through the node first and then reach the same
tail): no-op when already playing with `replace=False`; else builds the play
payload, stores the new track and the volume argument unclamped, sends, and
on the very first track (queue cursor `-1`) seeds the queue with it at
cursor `0`. -/
def Player.play (p : Player) (t : PTrack) (startTime endTime volume : ℤ)
    (replace pause : Bool) : Player × List PlayCommand :=
  if p.isPlaying && !replace then (p, [])
  else
    let cmd : PlayCommand :=
      ⟨p.guildId, t.id, startTime, volume, !replace, pause,
        if endTime > 0 then some endTime else none⟩
    let p2 : Player := { p with track := some t, volume := volume }
    let p3 : Player :=
      if p2.queue.current = -1 then
        { p2 with queue := ⟨t :: p2.queue.tracks, p2.queue.current + 1⟩ }
      else p2
    (p3, [cmd])

/-- `Player._togglePause`: builds the pause payload dict into the local name
`pause` — shadowing the bool parameter — and then runs
`self._paused = pause`, storing the dict; finally sends it.  Python
`str(True)`/`str(False)` produce `"True"`/`"False"`. -/
def Player.togglePause (p : Player) (pauseArg : Bool) : Player × List PausePayload :=
  let payload : PausePayload := ⟨"pause", p.guildId, if pauseArg then "True" else "False"⟩
  ({ p with paused := .payload payload }, [payload])

/-- `Player.pause`: `_togglePause(True)`. -/
def Player.pauseCmd (p : Player) : Player × List PausePayload :=
  p.togglePause true

/-- `Player.resume`: `_togglePause(False)`. -/
def Player.resumeCmd (p : Player) : Player × List PausePayload :=
  p.togglePause false

/-- The fixture session of the position-extrapolation test: connected,
unpaused, track length 60 s, last reported position 10 s at time 0. -/
def posFixture : Player :=
  { Player.mkPlayer "g" with
      connected := true
      track := some ⟨"t", 60⟩
      lastPosition := some 10
      lastUpdateTime := some 0 }

/-- The position-extrapolation fixture session with the connection flag
down: same track, same position report. -/
def posFixtureDisconnected : Player :=
  { posFixture with connected := false }

theorem queue_next_state (b : Bool) (s : QState α) :
    (Queue.next b s).state =
      if Queue.isEmptyQ s then s else if b then s else ⟨s.tracks, s.current + 1⟩ := by
  unfold Queue.next
  by_cases h1 : Queue.isEmptyQ s
  · simp [h1]
  · by_cases h2 : b
    · simp [h1, h2]
    · simp only [h1, h2, Bool.false_eq_true, if_false]
      cases hget : pyGet s.tracks (s.current + 1) <;> simp [hget]

theorem queue_previous_state (b : Bool) (s : QState α) :
    (Queue.previous b s).state =
      if s.current = 0 then s else if b then s else ⟨s.tracks, s.current - 1⟩ := by
  unfold Queue.previous
  by_cases h1 : s.current = 0
  · simp [h1]
  · by_cases h2 : b
    · simp [h1, h2]
    · simp only [h1, h2, Bool.false_eq_true, if_false]
      cases hget : pyGet s.tracks (s.current - 1) <;> simp [hget]

theorem pyClamp_le (l : List α) (i : ℤ) : (pyClamp l i).toNat ≤ l.length := by
  unfold pyClamp
  split <;> omega

theorem pyInsert_length (l : List α) (i : ℤ) (x : α) :
    (pyInsert l i x).length = l.length + 1 :=
  List.length_insertIdx _ _ (pyClamp_le l i)

theorem pyPop_length {l : List α} {i : ℤ} {x : α} {rest : List α}
    (h : pyPop l i = some (x, rest)) : rest.length + 1 = l.length := by
  unfold pyPop at h
  split at h
  · rename_i hrange
    split at h
    · rename_i hget
      obtain ⟨rfl, rfl⟩ : x = _ ∧ rest = _ := by
        injection h with h; injection h with h1 h2; exact ⟨h1.symm, h2.symm⟩
      apply List.length_eraseIdx_add_one
      omega
    · exact absurd h (by simp)
  · exact absurd h (by simp)

theorem QInv_shuffle {s s' : QState α} (h : QInv s) (hs : Queue.shuffleRel s s') :
    QInv s' := by
  unfold Queue.shuffleRel at hs
  split at hs
  · exact hs ▸ h
  · rename_i t rest hpop
    obtain ⟨rest2, hperm, rfl⟩ := hs
    obtain ⟨h1, h2⟩ := h
    refine ⟨h1, ?_⟩
    have hlen : rest2.length = rest.length := hperm.length_eq
    have hl := pyPop_length hpop
    have : (pyInsert rest2 s.current t).length = rest2.length + 1 :=
      pyInsert_length rest2 s.current t
    simp only [QState.mk.injEq] at *
    omega

theorem QInv_next (b : Bool) {s : QState α} (h : QInv s) : QInv (Queue.next b s).state := by
  rw [queue_next_state]
  obtain ⟨h1, h2⟩ := h
  split
  · exact ⟨h1, h2⟩
  split
  · exact ⟨h1, h2⟩
  rename_i hne _
  have h3 : ¬ (s.current = (s.tracks.length : ℤ) - 1) := by
    simpa [Queue.isEmptyQ] using hne
  exact ⟨by dsimp only; omega, by dsimp only; omega⟩

theorem QInv_previous (b : Bool) {s : QState α} (h : QInv s) (hc : s.current ≠ -1) :
    QInv (Queue.previous b s).state := by
  rw [queue_previous_state]
  obtain ⟨h1, h2⟩ := h
  split
  · exact ⟨h1, h2⟩
  split
  · exact ⟨h1, h2⟩
  rename_i hne _
  exact ⟨by dsimp only; omega, by dsimp only; omega⟩

/-- C1 (amended): from the initial queue, every sequence of `add`,
`addIterable`, `next` and `shuffle` — and `previous` from a cursor other
than `-1` — preserves the cursor invariant `-1 ≤ currentTrack ≤ len(tracks)-1`. -/
theorem queue_cursor_invariant {α : Type} (s : QState α) (h : QReachA s) : QInv s := by
  induction h with
  | init => exact ⟨le_refl _, by norm_num [Queue.initial]⟩
  | add t _ ih =>
    obtain ⟨h1, h2⟩ := ih
    refine ⟨h1, ?_⟩
    simp only [Queue.add, List.length_append, List.length_cons, List.length_nil]
    push_cast
    omega
  | addIterable ts _ ih =>
    obtain ⟨h1, h2⟩ := ih
    refine ⟨h1, ?_⟩
    simp only [Queue.addIterable, List.length_append]
    push_cast
    omega
  | next b hr ih => exact QInv_next b ih
  | previous b hr hcur ih => exact QInv_previous b ih hcur
  | shuffle hr hs ih => exact QInv_shuffle ih hs

/-- Witness for `queue_cursor_invariant`: the initial queue satisfies the
invariant. -/
theorem queue_cursor_invariant_witness : QInv (Queue.initial ℕ) :=
  queue_cursor_invariant _ QReachA.init

/-- C1 counterexample: as stated over all six operations the invariant fails.
`reset` from the initial state yields cursor `0` over an empty track list,
with `len(tracks) - 1 = -1 < 0 = currentTrack` violating the invariant's
upper bound, and `previous` invoked at cursor `-1` (reachable after two
`add`s) yields cursor `-2 < -1`, violating the lower bound. -/
theorem queue_cursor_invariant_cex :
    (QReach (Queue.reset (Queue.initial ℕ)) ∧
      Queue.reset (Queue.initial ℕ) = ⟨[], 0⟩ ∧
      ((Queue.reset (Queue.initial ℕ)).tracks.length : ℤ) - 1
        < (Queue.reset (Queue.initial ℕ)).current) ∧
    (QReach (Queue.previous false (Queue.add (Queue.add (Queue.initial ℕ) 7) 8)).state ∧
      (Queue.previous false (Queue.add (Queue.add (Queue.initial ℕ) 7) 8)).state
        = ⟨[7, 8], -2⟩ ∧
      (Queue.previous false (Queue.add (Queue.add (Queue.initial ℕ) 7) 8)).state.current
        < -1) :=
  ⟨⟨QReach.reset QReach.init, by decide, by decide⟩,
   ⟨QReach.previous false (QReach.add 8 (QReach.add 7 QReach.init)), by decide, by decide⟩⟩

theorem pyInsert_zero (l : List α) (x : α) : pyInsert l 0 x = x :: l := by
  have hc : pyClamp l (0 : ℤ) = 0 := by
    unfold pyClamp
    norm_num
  unfold pyInsert
  rw [hc]
  exact List.insertIdx_zero l x

/-- C7: on the queue `[A,B,C]` (encoded `[0,1,2]`) at cursor `0` with a
non-repeating player, `next` returns `B` then `C`, a third `next` raises
`QueueEmpty`, `previous` at cursor `0` raises `QueueEmpty`, and any `shuffle`
outcome keeps the cursor-position track in place while the remaining tracks
are a permutation of the other pre-shuffle tracks. -/
theorem queue_walkthrough :
    (Queue.next false (⟨[0, 1, 2], 0⟩ : QState ℕ)).result = .ok 1 ∧
    (Queue.next false (⟨[0, 1, 2], 0⟩ : QState ℕ)).state = ⟨[0, 1, 2], 1⟩ ∧
    (Queue.next false (⟨[0, 1, 2], 1⟩ : QState ℕ)).result = .ok 2 ∧
    (Queue.next false (⟨[0, 1, 2], 1⟩ : QState ℕ)).state = ⟨[0, 1, 2], 2⟩ ∧
    (Queue.next false (⟨[0, 1, 2], 2⟩ : QState ℕ)).result = .error .queueEmpty ∧
    (Queue.next false (⟨[0, 1, 2], 2⟩ : QState ℕ)).state = ⟨[0, 1, 2], 2⟩ ∧
    (Queue.previous false (⟨[0, 1, 2], 0⟩ : QState ℕ)).result = .error .queueEmpty ∧
    ∀ s' : QState ℕ, Queue.shuffleRel ⟨[0, 1, 2], 0⟩ s' →
      ∃ r, s'.tracks = 0 :: r ∧ r.Perm [1, 2] ∧ s'.current = 0 := by
  refine ⟨rfl, rfl, rfl, rfl, rfl, rfl, rfl, ?_⟩
  intro s' h
  unfold Queue.shuffleRel at h
  rw [show pyPop (⟨[0, 1, 2], 0⟩ : QState ℕ).tracks (⟨[0, 1, 2], 0⟩ : QState ℕ).current
        = some (0, [1, 2]) from by decide] at h
  obtain ⟨r, hperm, rfl⟩ := h
  exact ⟨r, by rw [pyInsert_zero], hperm, rfl⟩

/-- Witness for `queue_walkthrough`: the identity permutation is one possible
shuffle outcome, and it satisfies the stated shape. -/
theorem queue_walkthrough_witness :
    ∃ r, (⟨[0, 1, 2], 0⟩ : QState ℕ).tracks = 0 :: r ∧ r.Perm [1, 2] ∧
      (⟨[0, 1, 2], 0⟩ : QState ℕ).current = 0 :=
  queue_walkthrough.2.2.2.2.2.2.2 ⟨[0, 1, 2], 0⟩ (by
    unfold Queue.shuffleRel
    rw [show pyPop (⟨[0, 1, 2], 0⟩ : QState ℕ).tracks (⟨[0, 1, 2], 0⟩ : QState ℕ).current
          = some (0, [1, 2]) from by decide]
    exact ⟨[1, 2], List.Perm.refl _, by rw [pyInsert_zero]⟩)

/-- C3: every `delay()` call first increments the retry counter, wrapping to
`1` once it exceeds `maxRetries`, and (for a positive base) returns a value
in `[0, base * 2 ** retries)` where `retries` is the post-increment counter
active at that call.  The embedding is a total function: `delay()` has no
raising path. -/
theorem backoff_delay_bound (b : Backoff) (u : ℚ)
    (hu0 : 0 ≤ u) (hu1 : u < 1) (hbase : 0 < b.base) :
    (b.step.retries = if b.retries + 1 > b.maxRetries then 1 else b.retries + 1) ∧
    b.step.base = b.base ∧ b.step.maxRetries = b.maxRetries ∧
    0 ≤ b.delayValue u ∧
    b.delayValue u < (b.base : ℚ) * (2 : ℚ) ^ b.step.retries := by
  have hstep : b.step.retries = if b.retries + 1 > b.maxRetries then 1
      else b.retries + 1 := by
    unfold Backoff.step
    split <;> rfl
  have hbound : (0 : ℚ) < (b.base : ℚ) * (2 : ℚ) ^ b.step.retries := by
    apply mul_pos
    · exact_mod_cast hbase
    · exact zpow_pos (by norm_num) _
  refine ⟨hstep, ?_, ?_, ?_, ?_⟩
  · unfold Backoff.step; split <;> rfl
  · unfold Backoff.step; split <;> rfl
  · unfold Backoff.delayValue
    have := mul_nonneg (le_of_lt hbound) hu0
    linarith
  · unfold Backoff.delayValue
    calc 0 + ((b.base : ℚ) * (2 : ℚ) ^ b.step.retries - 0) * u
        = ((b.base : ℚ) * (2 : ℚ) ^ b.step.retries) * u := by ring
      _ < ((b.base : ℚ) * (2 : ℚ) ^ b.step.retries) * 1 := by
          exact mul_lt_mul_of_pos_left hu1 hbound
      _ = (b.base : ℚ) * (2 : ℚ) ^ b.step.retries := by ring

/-- Witness for `backoff_delay_bound`: a fresh default instance
(`base = 1`, `maxRetries = 20`) with draw `u = 1/2` yields delay `1`,
inside `[0, 1 * 2 ^ 1)`. -/
theorem backoff_delay_bound_witness :
    ((Backoff.mkBackoff 1 20).step.retries
        = if (0 : ℤ) + 1 > 20 then 1 else (0 : ℤ) + 1) ∧
    (Backoff.mkBackoff 1 20).step.base = 1 ∧
    (Backoff.mkBackoff 1 20).step.maxRetries = 20 ∧
    0 ≤ (Backoff.mkBackoff 1 20).delayValue (1 / 2) ∧
    (Backoff.mkBackoff 1 20).delayValue (1 / 2)
      < ((Backoff.mkBackoff 1 20).base : ℚ) * (2 : ℚ) ^ (Backoff.mkBackoff 1 20).step.retries :=
  backoff_delay_bound (Backoff.mkBackoff 1 20) (1 / 2)
    (by norm_num) (by norm_num) (by norm_num [Backoff.mkBackoff])

/-- C2: the node penalty equals
`playingPlayers + cpuPenalty + nullFramePenalty + deficitFramePenalty` with
the spec's formulas (frame penalties zero when the counters carry the
"absent" sentinel `-1`); a node with no stats has penalty `0`;
`systemLoad = 0` gives `cpuPenalty = 0`; and the fixture
`playingPlayers = 5, systemLoad = 0, framesNulled = -1, framesDeficit = -1`
gives penalty `5`. -/
theorem node_penalty_formula :
    (∀ st : Stats,
      Node.penalty (some st)
        = (st.playingPlayers : ℝ)
          + ((1.05 : ℝ) ^ ((100 : ℝ) * st.systemLoad) * 10 - 10)
          + (if st.framesNulled ≠ -1 then
              2 * ((1.03 : ℝ) ^ ((500 : ℝ) * (st.framesNulled : ℝ) / 3000) * 300 - 300)
            else 0)
          + (if st.framesDeficit ≠ -1 then
              (1.03 : ℝ) ^ ((500 : ℝ) * (st.framesDeficit : ℝ) / 3000) * 600 - 600
            else 0)) ∧
    Node.penalty none = 0 ∧
    (∀ st : Stats, st.systemLoad = 0 → (Penalty.ofStats st).cpuPenalty = 0) ∧
    Node.penalty (some ⟨5, 0, -1, -1⟩) = 5 := by
  have hcpu : ∀ st : Stats, st.systemLoad = 0 →
      (Penalty.ofStats st).cpuPenalty = 0 := by
    intro st h
    show (1.05 : ℝ) ^ ((100 : ℝ) * st.systemLoad) * 10 - 10 = 0
    rw [h, mul_zero, Real.rpow_zero]
    norm_num
  refine ⟨?_, rfl, hcpu, ?_⟩
  · intro st
    show (st.playingPlayers : ℝ) + _ + _ + _ = _
    congr 1
    · congr 1
      split <;> [skip; rfl]
      rw [mul_div_assoc]
      ring
    · split <;> [skip; rfl]
      rw [mul_div_assoc]
  · have h0 : ((1.05 : ℝ) ^ ((100 : ℝ) * (0 : ℝ)) * 10 - 10) = 0 := by
      rw [mul_zero, Real.rpow_zero]; norm_num
    show (5 : ℝ) + ((1.05 : ℝ) ^ ((100 : ℝ) * (0 : ℝ)) * 10 - 10) + _ + _ = 5
    rw [h0]
    norm_num

/-- Witness for `node_penalty_formula`: the `systemLoad = 0 → cpuPenalty = 0`
conjunct applied at the fixture stats. -/
theorem node_penalty_formula_witness :
    (Penalty.ofStats ⟨5, 0, -1, -1⟩).cpuPenalty = 0 :=
  node_penalty_formula.2.2.1 ⟨5, 0, -1, -1⟩ rfl

theorem head?_pySortedInsert (key : α → ℕ) (x : α) (l : List α) :
    (pySortedInsert key x l).head?
      = some (match l.head? with
              | none => x
              | some y => if key y < key x then y else x) := by
  cases l with
  | nil => rfl
  | cons y ys =>
    show (if key y < key x then y :: pySortedInsert key x ys else x :: y :: ys).head? = _
    simp only [List.head?_cons]
    by_cases hk : key y < key x
    · rw [if_pos hk]
      simp only [List.head?_cons]
      rw [if_pos hk]
    · rw [if_neg hk]
      simp only [List.head?_cons]
      rw [if_neg hk]

theorem firstMinBy_cons_none {key : α → ℕ} {x : α} {xs : List α}
    (hx : firstMinBy key xs = none) : firstMinBy key (x :: xs) = some x := by
  unfold firstMinBy
  rw [hx]

theorem firstMinBy_cons_some {key : α → ℕ} {x : α} {xs : List α} {m : α}
    (hx : firstMinBy key xs = some m) :
    firstMinBy key (x :: xs) = if key x ≤ key m then some x else some m := by
  unfold firstMinBy
  rw [hx]

theorem firstMinBy_eq_none (key : α → ℕ) (l : List α) :
    firstMinBy key l = none ↔ l = [] := by
  cases l with
  | nil => simp [firstMinBy]
  | cons x xs =>
    cases hx : firstMinBy key xs with
    | none => rw [firstMinBy_cons_none hx]; simp
    | some m =>
      rw [firstMinBy_cons_some hx]
      constructor
      · intro h
        split at h <;> exact absurd h (by simp)
      · intro h
        exact absurd h (by simp)

theorem head?_pySorted (key : α → ℕ) (l : List α) :
    (pySorted key l).head? = firstMinBy key l := by
  induction l with
  | nil => rfl
  | cons x xs ih =>
    show (pySortedInsert key x (pySorted key xs)).head? = _
    rw [head?_pySortedInsert, ih]
    cases h : firstMinBy key xs with
    | none => rw [firstMinBy_cons_none h]
    | some y =>
      rw [firstMinBy_cons_some h]
      show some (if key y < key x then y else x)
        = if key x ≤ key y then some x else some y
      by_cases hk : key y < key x
      · rw [if_pos hk, if_neg (by omega)]
      · rw [if_neg hk, if_pos (by omega)]

theorem firstMinBy_mem {key : α → ℕ} :
    ∀ {l : List α} {m : α}, firstMinBy key l = some m → m ∈ l := by
  intro l
  induction l with
  | nil => intro m h; simp [firstMinBy] at h
  | cons x xs ih =>
    intro m h
    cases hx : firstMinBy key xs with
    | none =>
      rw [firstMinBy_cons_none hx] at h
      injection h with h
      rw [← h]
      exact List.mem_cons_self x xs
    | some m2 =>
      rw [firstMinBy_cons_some hx] at h
      by_cases hk : key x ≤ key m2
      · rw [if_pos hk] at h
        injection h with h
        rw [← h]
        exact List.mem_cons_self x xs
      · rw [if_neg hk] at h
        injection h with h
        rw [← h]
        exact List.mem_cons_of_mem _ (ih hx)

theorem firstMinBy_min {key : α → ℕ} :
    ∀ {l : List α} {m : α}, firstMinBy key l = some m → ∀ a ∈ l, key m ≤ key a := by
  intro l
  induction l with
  | nil => intro m h; simp [firstMinBy] at h
  | cons x xs ih =>
    intro m h a ha
    cases hx : firstMinBy key xs with
    | none =>
      rw [firstMinBy_cons_none hx] at h
      injection h with h
      obtain rfl : xs = [] := (firstMinBy_eq_none key xs).mp hx
      have ha3 : a = x := by simpa using ha
      rw [← h, ha3]
    | some m2 =>
      rw [firstMinBy_cons_some hx] at h
      have hmin := ih hx
      rcases List.mem_cons.mp ha with h3 | ha2
      · by_cases hk : key x ≤ key m2
        · rw [if_pos hk] at h
          injection h with h
          rw [← h, h3]
        · rw [if_neg hk] at h
          injection h with h
          rw [← h, h3]
          omega
      · have h2 := hmin a ha2
        by_cases hk : key x ≤ key m2
        · rw [if_pos hk] at h
          injection h with h
          rw [← h]
          omega
        · rw [if_neg hk] at h
          injection h with h
          rw [← h]
          exact h2

/-- C8: `minPlayers` raises `NoNodesConnected` exactly on the empty
registry; on a non-empty registry it returns the first node (in registry
iteration order) attaining the minimal attached-player count — in
particular a node whose count is minimal over the registry — and on counts
`[3,1,2]` it returns the count-1 node. -/
theorem minPlayers_selects_first_min :
    (∀ reg : List NodeM,
      NodePool.minPlayers reg
        = match firstMinBy (fun n => n.players) reg with
          | none => .error .noNodesConnected
          | some n => .ok n) ∧
    (∀ (reg : List NodeM) (n : NodeM), NodePool.minPlayers reg = .ok n →
      n ∈ reg ∧ ∀ m ∈ reg, n.players ≤ m.players) ∧
    NodePool.minPlayers [⟨"a", 3⟩, ⟨"b", 1⟩, ⟨"c", 2⟩] = .ok ⟨"b", 1⟩ := by
  have hmain : ∀ reg : List NodeM,
      NodePool.minPlayers reg
        = match firstMinBy (fun n => n.players) reg with
          | none => .error .noNodesConnected
          | some n => .ok n := by
    intro reg
    unfold NodePool.minPlayers
    cases reg with
    | nil => rfl
    | cons x xs =>
      rw [if_neg (by simp)]
      have hh := head?_pySorted (fun n => n.players) (x :: xs)
      cases hs : pySorted (fun n => n.players) (x :: xs) with
      | nil =>
        rw [hs] at hh
        simp only [List.head?_nil] at hh
        have : (x :: xs : List NodeM) = [] :=
          (firstMinBy_eq_none (fun n => n.players) (x :: xs)).mp hh.symm
        exact absurd this (by simp)
      | cons m rest =>
        rw [hs] at hh
        simp only [List.head?_cons] at hh
        rw [← hh]
  refine ⟨hmain, ?_, ?_⟩
  · intro reg n hok
    rw [hmain reg] at hok
    cases hf : firstMinBy (fun m => m.players) reg with
    | none => rw [hf] at hok; exact absurd hok (by simp)
    | some m =>
      rw [hf] at hok
      injection hok with hok
      subst hok
      exact ⟨firstMinBy_mem hf, firstMinBy_min hf⟩
  · rw [hmain]
    rfl

/-- C4: on a status-200 `loadtracks` response, `getTracks` raises
`LoadTrackError` exactly when `loadType` is `LOAD_FAILED`, and returns
`None` (not an error) exactly when `loadType` is `NO_MATCHES`. -/
theorem getTracks_load_failed_vs_no_matches (r : LoadResponse) (h : r.status = 200) :
    (Node.getTracks r = .error .loadTrackError ↔ r.loadType = .loadFailed) ∧
    (Node.getTracks r = .ok none ↔ r.loadType = .noMatches) := by
  unfold Node.getTracks
  rw [if_neg (by omega)]
  cases r.loadType with
  | trackLoaded =>
    cases r.tracks with
    | nil => exact ⟨by simp, by simp⟩
    | cons t ts => exact ⟨by simp, by simp⟩
  | loadFailed => exact ⟨by simp, by simp⟩
  | noMatches => exact ⟨by simp, by simp⟩
  | searchResult => exact ⟨by simp, by simp⟩
  | playlistLoaded => exact ⟨by simp, by simp⟩

/-- Witness for `getTracks_load_failed_vs_no_matches`: a status-200
`NO_MATCHES` response returns `None`, and a status-200 `LOAD_FAILED`
response raises `LoadTrackError`. -/
theorem getTracks_load_failed_vs_no_matches_witness :
    (Node.getTracks ⟨200, .noMatches, [], ""⟩ = .ok none ↔
      (⟨200, .noMatches, [], ""⟩ : LoadResponse).loadType = .noMatches) ∧
    (Node.getTracks ⟨200, .loadFailed, [], ""⟩ = .error .loadTrackError ↔
      (⟨200, .loadFailed, [], ""⟩ : LoadResponse).loadType = .loadFailed) :=
  ⟨(getTracks_load_failed_vs_no_matches ⟨200, .noMatches, [], ""⟩ rfl).2,
   (getTracks_load_failed_vs_no_matches ⟨200, .loadFailed, [], ""⟩ rfl).1⟩

/-- Witness for `minPlayers_selects_first_min`: on the `[3,1,2]` registry the
selected node is a member and has the minimal player count. -/
theorem minPlayers_selects_first_min_witness :
    (⟨"b", 1⟩ : NodeM) ∈ ([⟨"a", 3⟩, ⟨"b", 1⟩, ⟨"c", 2⟩] : List NodeM) ∧
    ∀ m ∈ ([⟨"a", 3⟩, ⟨"b", 1⟩, ⟨"c", 2⟩] : List NodeM),
      (⟨"b", 1⟩ : NodeM).players ≤ m.players :=
  minPlayers_selects_first_min.2.1 [⟨"a", 3⟩, ⟨"b", 1⟩, ⟨"c", 2⟩] ⟨"b", 1⟩
    minPlayers_selects_first_min.2.2

/-- C5 (amended): for a session that is **connected**, holds a track and has
a position report on record, position = `min(lastPosition + (now -
lastUpdateTime), length)` when unpaused and `min(lastPosition, length)`
when paused; a session without a track reports `0`; the fixture (10 s
reported at time 0, length 60 s, unpaused) reports 15 s at `now = 5` and
the clamped 60 s at `now = 100`. -/
theorem player_position_extrapolation :
    (∀ (p : Player) (now : ℚ) (tr : PTrack) (lp lu : ℚ),
      p.connected = true → p.track = some tr → p.lastPosition = some lp →
      p.lastUpdateTime = some lu →
      (p.paused = .bool false →
        p.position now = some (min (lp + (now - lu)) tr.length)) ∧
      (p.paused = .bool true → p.position now = some (min lp tr.length))) ∧
    (∀ (p : Player) (now : ℚ), p.track = none → p.position now = some 0) ∧
    posFixture.position 5 = some 15 ∧
    posFixture.position 100 = some 60 := by
  refine ⟨?_, ?_, ?_, ?_⟩
  · intro p now tr lp lu hc ht hlp hlu
    constructor <;> intro hpaused <;>
      simp [Player.position, Player.isPlaying, hc, ht, hlp, hlu, hpaused,
        PyBoolOrDict.truthy]
  · intro p now ht
    simp [Player.position, Player.isPlaying, ht]
  · show posFixture.position 5 = some 15
    simp [Player.position, Player.isPlaying, posFixture, Player.mkPlayer,
      PyBoolOrDict.truthy]
    norm_num
  · show posFixture.position 100 = some 60
    simp [Player.position, Player.isPlaying, posFixture, Player.mkPlayer,
      PyBoolOrDict.truthy]
    norm_num

/-- Witness for `player_position_extrapolation`: the unpaused arm applied to
the fixture at `now = 5`. -/
theorem player_position_extrapolation_witness :
    posFixture.position 5 = some (min ((10 : ℚ) + ((5 : ℚ) - 0)) (60 : ℚ)) :=
  (player_position_extrapolation.1 posFixture 5 ⟨"t", 60⟩ 10 0
    rfl rfl rfl rfl).1 rfl

/-- C5 counterexample: the claim as stated (current track + unpaused forces
the extrapolation formula) fails for a session that holds a track but is not
connected: the code returns `0`, not the extrapolated
`min(10 + (5 - 0), 60) = 15`. -/
theorem player_position_cex :
    posFixtureDisconnected.track = some ⟨"t", 60⟩ ∧
    posFixtureDisconnected.paused = .bool false ∧
    posFixtureDisconnected.lastPosition = some 10 ∧
    posFixtureDisconnected.lastUpdateTime = some 0 ∧
    posFixtureDisconnected.position 5 = some 0 ∧
    min ((10 : ℚ) + ((5 : ℚ) - 0)) (60 : ℚ) = 15 ∧
    (0 : ℚ) < 15 :=
  ⟨rfl, rfl, rfl, rfl, rfl, by norm_num, by norm_num⟩

/-- C6: each filter method raises exactly on its membership condition, and
on the raising path the player state (in particular the filter map) is
unchanged and no payload is handed to the node's socket. -/
theorem player_filter_error_handling :
    (∀ (p : Player) (f : LFilter),
      ((p.addFilter f).1 = .error .filterAlreadyExists ↔
        filtersHas p.filters f.name = true) ∧
      (filtersHas p.filters f.name = true →
        (p.addFilter f).2.1 = p ∧ (p.addFilter f).2.2 = [])) ∧
    (∀ (p : Player) (n : String),
      ((p.removeFilter n).1 = .error .filterNotApplied ↔
        filtersHas p.filters n = false) ∧
      (filtersHas p.filters n = false →
        (p.removeFilter n).2.1 = p ∧ (p.removeFilter n).2.2 = [])) ∧
    (∀ (p : Player) (n : String) (d : LFilter),
      ((p.resetFilter n d).1 = .error .filterNotApplied ↔
        filtersHas p.filters n = false) ∧
      (filtersHas p.filters n = false →
        (p.resetFilter n d).2.1 = p ∧ (p.resetFilter n d).2.2 = [])) := by
  refine ⟨?_, ?_, ?_⟩
  · intro p f
    by_cases h : filtersHas p.filters f.name <;>
      simp [Player.addFilter, h]
  · intro p n
    by_cases h : filtersHas p.filters n <;>
      simp [Player.removeFilter, h]
  · intro p n d
    by_cases h : filtersHas p.filters n <;>
      simp [Player.resetFilter, h]

/-- Witness for `player_filter_error_handling`: removing a filter from a
fresh player (empty filter map) leaves the state unchanged and sends
nothing. -/
theorem player_filter_error_handling_witness :
    ((Player.mkPlayer "g").removeFilter "karaoke").2.1 = Player.mkPlayer "g" ∧
    ((Player.mkPlayer "g").removeFilter "karaoke").2.2 = [] :=
  (player_filter_error_handling.2.1 (Player.mkPlayer "g") "karaoke").2 rfl

/-- C9 (amended): the volume is `100` at construction and `setVolume` clamps
into `[0, 1000]`, but `play(..., volume=v)` stores `v` unclamped, so after
`play` the stored volume is in range only when `v` is. -/
theorem player_volume_range :
    (Player.mkPlayer "g").volume = 100 ∧
    (∀ (p : Player) (v : ℤ),
      (p.setVolume v).1.volume = max (min v 1000) 0 ∧
      0 ≤ (p.setVolume v).1.volume ∧ (p.setVolume v).1.volume ≤ 1000) ∧
    (∀ (p : Player) (t : PTrack) (st et v : ℤ) (replace pauseArg : Bool),
      (p.isPlaying && !replace) = false →
      (p.play t st et v replace pauseArg).1.volume = v) := by
  refine ⟨rfl, ?_, ?_⟩
  · intro p v
    refine ⟨rfl, ?_, ?_⟩ <;> show _ ≤ _ <;> simp [Player.setVolume]
  · intro p t st et v replace pauseArg h
    unfold Player.play
    rw [if_neg (by simp [h])]
    dsimp only
    split <;> rfl

/-- Witness for `player_volume_range`: a fresh player is not playing, so a
`play` at volume `250` stores `250`. -/
theorem player_volume_range_witness :
    ((Player.mkPlayer "g").play ⟨"t", 60⟩ 0 0 250 true false).1.volume = 250 :=
  player_volume_range.2.2 (Player.mkPlayer "g") ⟨"t", 60⟩ 0 0 250 true false
    (by decide)

/-- C9 counterexample: `play` at volume `2000` leaves the stored volume at
`2000`, outside `[0, 1000]`. -/
theorem player_volume_range_cex :
    ((Player.mkPlayer "g").play ⟨"t", 60⟩ 0 0 2000 true false).1.volume = 2000 ∧
    1000 < ((Player.mkPlayer "g").play ⟨"t", 60⟩ 0 0 2000 true false).1.volume := by
  constructor
  · rfl
  · rw [show ((Player.mkPlayer "g").play ⟨"t", 60⟩ 0 0 2000 true false).1.volume
        = 2000 from rfl]
    omega

/-- C10: `_togglePause(b)` stores the pause payload dict — not the bool `b`
— into `_paused` (the parameter is shadowed before `self._paused = pause`),
so after `resume()` the `isPaused` value is a truthy dict rather than
`False`. -/
theorem toggle_pause_stores_payload :
    (∀ (p : Player) (b : Bool),
      (p.togglePause b).1.paused
        = .payload ⟨"pause", p.guildId, if b then "True" else "False"⟩) ∧
    (∀ (p : Player) (b : Bool), ((p.togglePause b).1.paused).truthy = true) ∧
    (Player.mkPlayer "g").resumeCmd.1.paused.truthy = true ∧
    PyBoolOrDict.truthy (.bool false) = false :=
  ⟨fun _ _ => rfl, fun _ _ => rfl, rfl, rfl⟩

end Lavapy
